import Mathlib

/-!
Verification of the gucli command-line GUI wrapper (gucli.pyw).

The development shallowly embeds the pure logic of gucli.pyw:
the argument-schema compiler (add_argument, select_parser_group),
the command assembler (construct_and_run), the process runner
(run_command) and the ini-file bootstrap in main.  Python runtime
values that can appear as parsed-argument values are modelled by
the inductive type PyVal; configparser state is modelled by the
Config and Section structures, where a key absent from a section
is an Option.none field.
-/

namespace Gucli

/-- A single quote character, used to build Python string literals verbatim. -/
def sq : String := String.singleton (Char.ofNat 39)

/-- The SHOW_COMMAND_HELP constant of gucli.pyw
(the Python source spells it with an apostrophe). -/
def SHOW_COMMAND_HELP : String := "Show command" ++ sq ++ "s original help page"

/-- Python runtime values that occur as parsed-argument values in gucli:
None, booleans, strings and lists of strings (multi-file selection). -/
inductive PyVal where
  | none : PyVal
  | bool (b : Bool) : PyVal
  | str (s : String) : PyVal
  | list (xs : List String) : PyVal
deriving DecidableEq

/-- Python truthiness of a PyVal, as used by `if args.get(section):`. -/
def PyVal.truthy : PyVal → Bool
  | PyVal.none => false
  | PyVal.bool b => b
  | PyVal.str s => !s.isEmpty
  | PyVal.list xs => !xs.isEmpty

/-- Rendering of a Python list of strings by an f-string,
as in `f'-x7bargs[section]-x7d'` when the value is a list. -/
def py_list_fstr (xs : List String) : String :=
  "[" ++ String.intercalate ", " (xs.map (fun s => sq ++ s ++ sq)) ++ "]"

/-- Rendering of a PyVal by a Python f-string. -/
def PyVal.fstr : PyVal → String
  | PyVal.none => "None"
  | PyVal.bool b => if b then "True" else "False"
  | PyVal.str s => s
  | PyVal.list xs => py_list_fstr xs

/-- One ini-file argument section.  An absent key is Option.none;
`config[section].get(key, d)` is modelled by `Option.getD`. -/
structure Section where
  title : String
  flag : Option String := Option.none
  typ : Option String := Option.none
  dflt : Option String := Option.none
  help : Option String := Option.none
  mutex : Option String := Option.none
  choices : Option String := Option.none
deriving DecidableEq

/-- The loaded configuration: the root section keys used by gucli
plus the argument sections in declaration order. -/
structure Config where
  command : String
  about : Option String := Option.none
  help_flag : Option String := Option.none
  sections : List Section := []
deriving DecidableEq

/-- Contribution of one section to the assembled command line, embedding
the loop body of construct_and_run (gucli.pyw lines 299-312): skip a
falsy value; prepend the flag (with a leading space) when the section
declares a non-empty flag; drop the value when its f-string rendering is
exactly "True"; join list values with spaces; otherwise append the value
with a leading space. -/
def section_contribution (sec : Section) (v : PyVal) : String :=
  if v.truthy then
    let arg_flag0 := (sec.flag).getD ""
    let arg_flag := if arg_flag0 = "" then arg_flag0 else " " ++ arg_flag0
    let cmd_param :=
      if v.fstr = "True" then ""
      else
        " " ++ (match v with
          | PyVal.list xs => String.intercalate " " xs
          | w => w.fstr)
    arg_flag ++ cmd_param
  else ""

/-- The command string built by construct_and_run (gucli.pyw lines 295-312)
before it is handed to run_command.  When the show-command-help option is
selected, `config.defaults()['help_flag']` raises KeyError if the root
section has no help_flag; that exception is modelled by Option.none. -/
def construct_cmd (config : Config) (args : String → PyVal) : Option String :=
  if (args SHOW_COMMAND_HELP).truthy then
    match config.help_flag with
    | some hf => some (config.command ++ " " ++ hf)
    | Option.none => Option.none
  else
    some (config.sections.foldl
      (fun cmd sec => cmd ++ section_contribution sec (args sec.title))
      config.command)

/-- Concatenation of the per-section contributions, in declaration order. -/
def concat_contribs (f : Section → String) : List Section → String
  | [] => ""
  | sec :: rest => f sec ++ concat_contribs f rest

/-- Stringification of a parsed value as described by the specification:
list values are joined into one space-separated string, every other
value is rendered by the f-string. -/
def spec_value_str : PyVal → String
  | PyVal.list xs => String.intercalate " " xs
  | w => w.fstr

/-- Flag part as described by the specification: the section flag
preceded by a space, when a (non-empty) flag is declared. -/
def spec_flag_part (sec : Section) : String :=
  match sec.flag with
  | some f => if f = "" then "" else " " ++ f
  | Option.none => ""

/-- Per-section contribution exactly as the specification sentence of C1
words it: for a present (truthy) parsed value, the flag part followed by
the stringified value preceded by a space. -/
def spec_contribution (sec : Section) (v : PyVal) : String :=
  if v.truthy then spec_flag_part sec ++ " " ++ spec_value_str v else ""

/-- Command string as the specification sentence of C1 words it:
the base command followed by the contributions in schema order. -/
def spec_assemble (config : Config) (args : String → PyVal) : String :=
  config.command ++
    concat_contribs (fun sec => spec_contribution sec (args sec.title)) config.sections

/-- Per-section contribution as amended: identical to spec_contribution
except that a value whose f-string rendering is exactly "True"
contributes no value part. -/
def spec_contribution_amended (sec : Section) (v : PyVal) : String :=
  if v.truthy then
    spec_flag_part sec ++
      (if v.fstr = "True" then "" else " " ++ spec_value_str v)
  else ""

/-- Command string as the amended claim words it. -/
def spec_assemble_amended (config : Config) (args : String → PyVal) : String :=
  config.command ++
    concat_contribs (fun sec => spec_contribution_amended sec (args sec.title))
      config.sections

/-- The string "a" ++ needle ++ "b" witness: needle occurs verbatim,
character for character, inside hay. -/
def contains_verbatim (needle hay : String) : Prop :=
  ∃ a b, hay = a ++ needle ++ b

/-- Helper: a non-empty string is not isEmpty. -/
lemma isEmpty_false_of_ne (s : String) (h : s ≠ "") : s.isEmpty = false := by
  cases hb : s.isEmpty with
  | false => rfl
  | true => exact absurd ((String.isEmpty_iff s).mp hb) h

/-- Helper: the f-string rendering of a Python list starts with a bracket,
so it is never the text "True". -/
lemma py_list_fstr_ne_true (xs : List String) : py_list_fstr xs ≠ "True" := by
  intro h
  have hd := congrArg String.data h
  simp [py_list_fstr, String.data_append] at hd

/-- Helper: every PyVal rendering to "True" is truthy. -/
lemma truthy_of_fstr_true (v : PyVal) (h : v.fstr = "True") : v.truthy = true := by
  cases v with
  | none => simp [PyVal.fstr] at h
  | bool b =>
    cases b with
    | false => simp [PyVal.fstr] at h
    | true => rfl
  | str s =>
    simp only [PyVal.fstr] at h
    subst h
    rfl
  | list xs => exact absurd h (py_list_fstr_ne_true xs)

/-- Helper: the foldl of construct_and_run equals the base command followed
by the concatenation of the per-section contributions. -/
lemma foldl_eq_concat (f : Section → String) (l : List Section) (cmd : String) :
    l.foldl (fun c s => c ++ f s) cmd = cmd ++ concat_contribs f l := by
  induction l generalizing cmd with
  | nil => simp [concat_contribs, String.append_empty]
  | cons s rest ih =>
    simp only [List.foldl_cons, concat_contribs, ih, String.append_assoc]

/-- Helper: concat_contribs distributes over list append. -/
lemma concat_contribs_append (f : Section → String) (l1 l2 : List Section) :
    concat_contribs f (l1 ++ l2) = concat_contribs f l1 ++ concat_contribs f l2 := by
  induction l1 with
  | nil => simp [concat_contribs, String.empty_append]
  | cons s rest ih => simp [concat_contribs, ih, String.append_assoc]

/-- Helper: the amended specification contribution coincides with the code. -/
lemma spec_contribution_amended_eq (sec : Section) (v : PyVal) :
    spec_contribution_amended sec v = section_contribution sec v := by
  have hval : (match v with
      | PyVal.list xs => String.intercalate " " xs
      | w => w.fstr) = spec_value_str v := by
    cases v <;> rfl
  rcases hf : sec.flag with _ | f
  · simp [spec_contribution_amended, section_contribution, spec_flag_part, hf, hval]
  · by_cases h0 : f = "" <;>
      simp [spec_contribution_amended, section_contribution, spec_flag_part, hf, h0, hval]

/-- Helper: contribution of a non-empty string value other than "True". -/
lemma section_contribution_str (sec : Section) (s : String)
    (h0 : s ≠ "") (h1 : s ≠ "True") :
    section_contribution sec (PyVal.str s) =
      (if (sec.flag).getD "" = "" then "" else " " ++ (sec.flag).getD "") ++ (" " ++ s) := by
  simp only [section_contribution, PyVal.truthy, PyVal.fstr,
    isEmpty_false_of_ne s h0, h1, Bool.not_false, if_true, if_false]
  by_cases hfe : (sec.flag).getD "" = "" <;> simp [hfe]

/-- Helper: contribution of a non-empty list value. -/
lemma section_contribution_list (sec : Section) (xs : List String) (h0 : xs ≠ []) :
    section_contribution sec (PyVal.list xs) =
      (if (sec.flag).getD "" = "" then "" else " " ++ (sec.flag).getD "") ++
        (" " ++ String.intercalate " " xs) := by
  simp only [section_contribution, PyVal.truthy, PyVal.fstr, h0,
    py_list_fstr_ne_true xs, if_false]
  by_cases hfe : (sec.flag).getD "" = "" <;> simp [hfe, h0]

/-- Demo section: a boolean flag, as [Sort Keys] of the default ini file. -/
def demo_sec_bool : Section := { title := "Sort Keys", flag := some "--sort-keys" }

/-- Demo section: a string flag, as [Indentation Width] of the default ini file. -/
def demo_sec_str : Section :=
  { title := "Indentation Width", flag := some "--indent", typ := some "string",
    mutex := some "IndentSpaceOrTab" }

/-- Demo section: a positional multi-file argument, as [Infile]. -/
def demo_sec_file : Section := { title := "Infile", typ := some "file" }

/-- Demo configuration with the three demo sections. -/
def demo_config : Config :=
  { command := "python -m json.tool", help_flag := some "--help",
    sections := [demo_sec_str, demo_sec_bool, demo_sec_file] }

/-- C8: an argument whose parsed value renders to exactly "True" by the
f-string (a checked boolean flag, but also a string- or choice-typed
argument whose user text is literally "True") contributes only its flag
to the command line; the value itself is dropped. -/
theorem claim_C8 (sec : Section) (v : PyVal) (h : v.fstr = "True") :
    section_contribution sec v =
      (if (sec.flag).getD "" = "" then "" else " " ++ (sec.flag).getD "") := by
  simp only [section_contribution, truthy_of_fstr_true v h, h, if_true]
  by_cases hfe : (sec.flag).getD "" = "" <;> simp [hfe]

theorem claim_C8_witness :
    (PyVal.str "True").fstr = "True" ∧
    section_contribution demo_sec_str (PyVal.str "True") =
      (if (demo_sec_str.flag).getD "" = "" then ""
       else " " ++ (demo_sec_str.flag).getD "") :=
  ⟨rfl, claim_C8 demo_sec_str (PyVal.str "True") rfl⟩

/-- C9: an argument whose parsed value is falsy (False, None, the empty
string or the empty list) contributes nothing to the command line:
neither its flag nor any value appears. -/
theorem claim_C9 (sec : Section) (v : PyVal) (h : v.truthy = false) :
    section_contribution sec v = "" := by
  simp [section_contribution, h]

theorem claim_C9_witness :
    (PyVal.str "").truthy = false ∧
    section_contribution demo_sec_str (PyVal.str "") = "" :=
  ⟨rfl, claim_C9 demo_sec_str (PyVal.str "") rfl⟩

/-- C10: when the show-command-help option is selected, the assembled
command is exactly the base command, a space and the configured help
flag, and no other parsed-argument value influences it: any two
argument mappings that both select the option yield the same command. -/
theorem claim_C10 (config : Config) (args args2 : String → PyVal) (hf : String)
    (hhf : config.help_flag = some hf)
    (h1 : (args SHOW_COMMAND_HELP).truthy = true)
    (h2 : (args2 SHOW_COMMAND_HELP).truthy = true) :
    construct_cmd config args = some (config.command ++ " " ++ hf) ∧
    construct_cmd config args = construct_cmd config args2 := by
  constructor
  · simp [construct_cmd, h1, hhf]
  · simp [construct_cmd, h1, h2]

/-- Argument mapping selecting the show-command-help option only. -/
def demo_args_help : String → PyVal := fun _ => PyVal.bool true

/-- Argument mapping selecting the option and also setting other values. -/
def demo_args_help2 : String → PyVal := fun t =>
  if t = SHOW_COMMAND_HELP then PyVal.bool true else PyVal.str "other"

theorem claim_C10_witness :
    demo_config.help_flag = some "--help" ∧
    (demo_args_help SHOW_COMMAND_HELP).truthy = true ∧
    (demo_args_help2 SHOW_COMMAND_HELP).truthy = true ∧
    (construct_cmd demo_config demo_args_help =
        some (demo_config.command ++ " " ++ "--help") ∧
      construct_cmd demo_config demo_args_help =
        construct_cmd demo_config demo_args_help2) :=
  ⟨rfl, rfl, by decide,
    claim_C10 demo_config demo_args_help demo_args_help2 "--help" rfl rfl (by decide)⟩

/-- Configuration of the C1 counterexample: one boolean flag section. -/
def c1_config : Config :=
  { command := "python -m json.tool", sections := [demo_sec_bool] }

/-- Argument mapping of the C1 counterexample: the boolean flag is checked. -/
def c1_args : String → PyVal := fun t =>
  if t = "Sort Keys" then PyVal.bool true else PyVal.none

/-- C1 counterexample: with the show-command-help option not selected and
a checked boolean flag, the code assembles "python -m json.tool --sort-keys"
while the claim's formula appends the stringified value as well, yielding
"python -m json.tool --sort-keys True"; the two differ. -/
theorem claim_C1_counterexample :
    (c1_args SHOW_COMMAND_HELP).truthy = false ∧
    construct_cmd c1_config c1_args ≠ some (spec_assemble c1_config c1_args) := by
  constructor
  · decide
  · decide

/-- C1 as amended: when the show-command-help option is not selected, the
assembled command equals the base command followed, for each schema
section in declaration order whose parsed value is truthy, by the
section's flag (preceded by a space, when a non-empty flag is declared)
and then, unless the value's rendering is exactly "True" (in which case
the value part is omitted), the stringified value preceded by a space,
with list values joined into one space-separated string. -/
theorem claim_C1 (config : Config) (args : String → PyVal)
    (h : (args SHOW_COMMAND_HELP).truthy = false) :
    construct_cmd config args = some (spec_assemble_amended config args) := by
  have hfun : (fun sec => spec_contribution_amended sec (args sec.title))
      = fun sec => section_contribution sec (args sec.title) :=
    funext fun sec => spec_contribution_amended_eq sec (args sec.title)
  simp [construct_cmd, h, spec_assemble_amended, hfun, foldl_eq_concat]

theorem claim_C1_witness :
    (c1_args SHOW_COMMAND_HELP).truthy = false ∧
    construct_cmd c1_config c1_args = some (spec_assemble_amended c1_config c1_args) :=
  ⟨by decide, claim_C1 c1_config c1_args (by decide)⟩

/-- Helper: a contribution of shape X ++ (" " ++ s) places s verbatim in
the assembled command line. -/
lemma contains_of_contribution (config : Config) (args : String → PyVal)
    (sec : Section) (pre post : List Section)
    (hsplit : config.sections = pre ++ sec :: post)
    (hshow : (args SHOW_COMMAND_HELP).truthy = false) (X s : String)
    (hc : section_contribution sec (args sec.title) = X ++ (" " ++ s)) :
    ∃ c, construct_cmd config args = some c ∧ contains_verbatim s c := by
  refine ⟨config.command ++
      concat_contribs (fun x => section_contribution x (args x.title)) config.sections,
    by simp [construct_cmd, hshow, foldl_eq_concat], ?_⟩
  rw [hsplit, concat_contribs_append]
  have hcons : concat_contribs (fun x => section_contribution x (args x.title))
      (sec :: post)
      = section_contribution sec (args sec.title) ++
        concat_contribs (fun x => section_contribution x (args x.title)) post := rfl
  rw [hcons, hc]
  exact ⟨config.command ++
      concat_contribs (fun x => section_contribution x (args x.title)) pre ++ X ++ " ",
    concat_contribs (fun x => section_contribution x (args x.title)) post,
    by simp [String.append_assoc]⟩

/-- C7: command assembly performs naive concatenation with no escaping or
quoting: every appended string value, and every space-joined list value,
occurs character for character in the assembled command, whatever
characters (spaces, quotes, shell metacharacters) it contains. -/
theorem claim_C7 (config : Config) (args : String → PyVal) (sec : Section)
    (hmem : sec ∈ config.sections)
    (hshow : (args SHOW_COMMAND_HELP).truthy = false) :
    (∀ s, args sec.title = PyVal.str s → s ≠ "" → s ≠ "True" →
      ∃ c, construct_cmd config args = some c ∧ contains_verbatim s c) ∧
    (∀ xs, args sec.title = PyVal.list xs → xs ≠ [] →
      ∃ c, construct_cmd config args = some c ∧
        contains_verbatim (String.intercalate " " xs) c) := by
  obtain ⟨pre, post, hsplit⟩ := List.append_of_mem hmem
  constructor
  · intro s hv h0 h1
    refine contains_of_contribution config args sec pre post hsplit hshow
      (if (sec.flag).getD "" = "" then "" else " " ++ (sec.flag).getD "") s ?_
    rw [hv]
    exact section_contribution_str sec s h0 h1
  · intro xs hv h0
    refine contains_of_contribution config args sec pre post hsplit hshow
      (if (sec.flag).getD "" = "" then "" else " " ++ (sec.flag).getD "")
      (String.intercalate " " xs) ?_
    rw [hv]
    exact section_contribution_list sec xs h0

/-- Argument mapping of the C7 witness: a string value full of shell
metacharacters supplied for the indentation flag. -/
def c7_args : String → PyVal := fun t =>
  if t = "Indentation Width" then PyVal.str "2; rm -rf $(HOME)" else PyVal.none

theorem claim_C7_witness :
    demo_sec_str ∈ demo_config.sections ∧
    (c7_args SHOW_COMMAND_HELP).truthy = false ∧
    c7_args demo_sec_str.title = PyVal.str "2; rm -rf $(HOME)" ∧
    contains_verbatim "2; rm -rf $(HOME)"
      "python -m json.tool --indent 2; rm -rf $(HOME)" := by
  refine ⟨by decide, by decide, by decide, ?_⟩
  obtain ⟨c, hc, hcv⟩ :=
    (claim_C7 demo_config c7_args demo_sec_str (by decide) (by decide)).1
      "2; rm -rf $(HOME)" (by decide) (by decide) (by decide)
  have hval : construct_cmd demo_config c7_args
      = some "python -m json.tool --indent 2; rm -rf $(HOME)" := by decide
  rw [hval] at hc
  injection hc with hcc
  exact hcc ▸ hcv

/-- Rendering of an optional string by a Python f-string
(an absent value is the Python None, rendered "None"). -/
def optStr : Option String → String
  | Option.none => "None"
  | some s => s

/-- The choices computation of the choice branch of add_argument:
split on commas, keep the raw pieces that are non-empty, strip each. -/
def parse_choices (raw : String) : List String :=
  ((raw.splitOn ",").filter (fun ch => ch ≠ "")).map String.trim

/-- The keyword-argument dictionary handed to parser.add_argument
(gucli.pyw lines 202-239).  The dflt field models the Python
'default' entry; an Option.none field models an absent entry. -/
structure ArgDict where
  help : String
  dflt : Option String
  widget : Option String
  action : Option String
  nargs : Option String
  choices : Option (List String)
  dest : Option String
  required : Option Bool
deriving DecidableEq

/-- The result of add_argument for one section: the primary argument
(flag or section title), the keyword dictionary, and whether the
invalid-type information box was shown. -/
structure AddedArg where
  primary : String
  dict : ArgDict
  invalid_type_notice : Bool
deriving DecidableEq

/-- Embedding of add_argument (gucli.pyw lines 181-244): digest the
section keys, dispatch on the type (defaulting to boolean, any unknown
type falling back to boolean after an invalid-type notice), attach the
choices list when non-empty, and key flagged arguments by the section
title through dest. -/
def add_argument (sec : Section) : AddedArg :=
  let arg_flag := (sec.flag).getD "_positional"
  let arg_type := (sec.typ).getD "boolean"
  let arg_default := sec.dflt
  let arg_help := (sec.help).getD
    (sec.title ++ " " ++ arg_flag ++ " (" ++ arg_type ++ ") defaults to \"" ++
      optStr arg_default ++ "\"")
  let wan : Option String × Option String × Option String ×
      Option (List String) × Bool :=
    if arg_type = "boolean" then
      (Option.none, some "store_true", Option.none, Option.none, false)
    else if arg_type = "string" then
      (Option.none, some "store", Option.none, Option.none, false)
    else if arg_type = "integer" then
      (some "IntegerField", Option.none, Option.none, Option.none, false)
    else if arg_type = "file" then
      (some "MultiFileChooser", Option.none, some "+", Option.none, false)
    else if arg_type = "save" then
      (some "FileSaver", Option.none, Option.none, Option.none, false)
    else if arg_type = "dir" then
      (some "DirChooser", Option.none, Option.none, Option.none, false)
    else if arg_type = "choice" then
      (Option.none, some "store", Option.none,
        some (parse_choices ((sec.choices).getD "Yes, No")), false)
    else
      (Option.none, some "store_true", Option.none, Option.none, true)
  let arg_widget := wan.1
  let arg_action := wan.2.1
  let arg_nargs := wan.2.2.1
  let arg_choices := wan.2.2.2.1
  let notice := wan.2.2.2.2
  let dict_choices : Option (List String) :=
    match arg_choices with
    | some l => if l.isEmpty then Option.none else some l
    | Option.none => Option.none
  let pdr : String × Option String × Option Bool :=
    if arg_flag = "_positional" then (sec.title, Option.none, Option.none)
    else (arg_flag, some sec.title, some false)
  { primary := pdr.1
    dict := { help := arg_help, dflt := arg_default, widget := arg_widget,
              action := arg_action, nargs := arg_nargs, choices := dict_choices,
              dest := pdr.2.1, required := pdr.2.2 }
    invalid_type_notice := notice }

/-- The seven argument types the ini schema supports. -/
def supported_types : List String :=
  ["boolean", "string", "integer", "file", "dir", "save", "choice"]

/-- C2: the schema compiler dispatches on exactly the seven argument types:
boolean gives a store_true action, string a store action, integer an
IntegerField widget, file a MultiFileChooser widget taking one or more
files, save a FileSaver widget, dir a DirChooser widget, choice a store
action carrying the declared choices list; a section with no type key is
compiled exactly as a boolean one; and a type is accepted (compiled with
no invalid-type notice) precisely when it belongs to the set — any other
type triggers the invalid-type notice and falls back to boolean. -/
theorem claim_C2 (sec : Section) :
    (sec.typ = Option.none →
      add_argument sec = add_argument { sec with typ := some "boolean" }) ∧
    (sec.typ = some "boolean" →
      (add_argument sec).dict.action = some "store_true" ∧
      (add_argument sec).dict.widget = Option.none ∧
      (add_argument sec).invalid_type_notice = false) ∧
    (sec.typ = some "string" →
      (add_argument sec).dict.action = some "store" ∧
      (add_argument sec).dict.widget = Option.none ∧
      (add_argument sec).invalid_type_notice = false) ∧
    (sec.typ = some "integer" →
      (add_argument sec).dict.widget = some "IntegerField" ∧
      (add_argument sec).invalid_type_notice = false) ∧
    (sec.typ = some "file" →
      (add_argument sec).dict.widget = some "MultiFileChooser" ∧
      (add_argument sec).dict.nargs = some "+" ∧
      (add_argument sec).invalid_type_notice = false) ∧
    (sec.typ = some "save" →
      (add_argument sec).dict.widget = some "FileSaver" ∧
      (add_argument sec).invalid_type_notice = false) ∧
    (sec.typ = some "dir" →
      (add_argument sec).dict.widget = some "DirChooser" ∧
      (add_argument sec).invalid_type_notice = false) ∧
    (sec.typ = some "choice" →
      (add_argument sec).dict.action = some "store" ∧
      (∀ raw, sec.choices = some raw → parse_choices raw ≠ [] →
        (add_argument sec).dict.choices = some (parse_choices raw)) ∧
      (add_argument sec).invalid_type_notice = false) ∧
    ((add_argument sec).invalid_type_notice = false ↔
      (sec.typ).getD "boolean" ∈ supported_types) := by
  refine ⟨?_, ?_, ?_, ?_, ?_, ?_, ?_, ?_, ?_⟩
  · intro h; simp [add_argument, h]
  · intro h; simp [add_argument, h]
  · intro h; simp [add_argument, h]
  · intro h; simp [add_argument, h]
  · intro h; simp [add_argument, h]
  · intro h; simp [add_argument, h]
  · intro h; simp [add_argument, h]
  · intro h
    refine ⟨by simp [add_argument, h], ?_, by simp [add_argument, h]⟩
    intro raw hraw hne
    simp [add_argument, h, hraw, List.isEmpty_iff, hne]
  · rcases h : sec.typ with _ | t
    · simp [add_argument, h, supported_types]
    · by_cases h1 : t = "boolean"
      · simp [add_argument, h, h1, supported_types]
      · by_cases h2 : t = "string"
        · simp [add_argument, h, h1, h2, supported_types]
        · by_cases h3 : t = "integer"
          · simp [add_argument, h, h1, h2, h3, supported_types]
          · by_cases h4 : t = "file"
            · simp [add_argument, h, h1, h2, h3, h4, supported_types]
            · by_cases h5 : t = "save"
              · simp [add_argument, h, h1, h2, h3, h4, h5, supported_types]
              · by_cases h6 : t = "dir"
                · simp [add_argument, h, h1, h2, h3, h4, h5, h6, supported_types]
                · by_cases h7 : t = "choice"
                  · simp [add_argument, h, h1, h2, h3, h4, h5, h6, h7,
                      supported_types]
                  · simp [add_argument, h, h1, h2, h3, h4, h5, h6, h7,
                      supported_types]

theorem claim_C2_witness :
    demo_sec_file.typ = some "file" ∧
    ((add_argument demo_sec_file).dict.widget = some "MultiFileChooser" ∧
      (add_argument demo_sec_file).dict.nargs = some "+" ∧
      (add_argument demo_sec_file).invalid_type_notice = false) :=
  ⟨rfl, (claim_C2 demo_sec_file).2.2.2.2.1 rfl⟩

/-- Where an argument is added: the global parser, or the mutually
exclusive group of the given index (indices count group creations). -/
inductive ParserTarget where
  | global : ParserTarget
  | group (g : Nat) : ParserTarget
deriving DecidableEq

/-- Lookup in the mutex-group dictionary, modelling
`arg_mutex in mutex_group_dict` / `mutex_group_dict[arg_mutex]`. -/
def find_group : List (String × Nat) → String → Option Nat
  | [], _ => Option.none
  | (k, v) :: rest, m => if m = k then some v else find_group rest m

/-- The mutex_group_dict together with a counter naming the next group
that parser.add_mutually_exclusive_group() would create. -/
structure MutexState where
  groups : List (String × Nat)
  next : Nat
deriving DecidableEq

/-- The mutex key of a section as tested by `if arg_mutex:` in
select_parser_group: an absent or empty key is falsy. -/
def effective_mutex (sec : Section) : Option String :=
  match sec.mutex with
  | some m => if m = "" then Option.none else some m
  | Option.none => Option.none

/-- Embedding of select_parser_group (gucli.pyw lines 170-178): the global
parser when no truthy mutex key is declared; otherwise the group stored
under the id, creating and storing a fresh group at first sight. -/
def select_parser_group (sec : Section) (st : MutexState) : ParserTarget × MutexState :=
  match effective_mutex sec with
  | Option.none => (ParserTarget.global, st)
  | some m =>
    match find_group st.groups m with
    | some g => (ParserTarget.group g, st)
    | Option.none =>
      (ParserTarget.group st.next,
        { groups := st.groups ++ [(m, st.next)], next := st.next + 1 })

/-- One iteration of the loop of build_arg_parser (gucli.pyw lines 257-259):
choose the target group for the section and record the pair. -/
def assign_step (acc : List (Section × ParserTarget) × MutexState) (sec : Section) :
    List (Section × ParserTarget) × MutexState :=
  (acc.1 ++ [(sec, (select_parser_group sec acc.2).1)],
    (select_parser_group sec acc.2).2)

/-- The section-to-group assignment made while build_arg_parser walks the
schema sections in declaration order. -/
def assign_targets (sections : List Section) : List (Section × ParserTarget) × MutexState :=
  sections.foldl assign_step ([], ⟨[], 0⟩)

/-- Helper: a failed lookup stays transparent under a later append. -/
lemma find_group_append_of_none (l l2 : List (String × Nat)) (m : String)
    (h : find_group l m = Option.none) :
    find_group (l ++ l2) m = find_group l2 m := by
  induction l with
  | nil => rfl
  | cons kv rest ih =>
    rcases kv with ⟨k, v⟩
    by_cases hm : m = k
    · simp [find_group, hm] at h
    · simp only [find_group, hm, if_false] at h
      simp only [List.cons_append, find_group, hm, if_false]
      exact ih h

/-- Helper: a successful lookup is preserved under a later append. -/
lemma find_group_append_of_some (l l2 : List (String × Nat)) (m : String) (g : Nat)
    (h : find_group l m = some g) :
    find_group (l ++ l2) m = some g := by
  induction l with
  | nil => simp [find_group] at h
  | cons kv rest ih =>
    rcases kv with ⟨k, v⟩
    by_cases hm : m = k
    · simp only [find_group, hm, if_true] at h
      simp [List.cons_append, find_group, hm, h]
    · simp only [find_group, hm, if_false] at h
      simp only [List.cons_append, find_group, hm, if_false]
      exact ih h

/-- Helper: a key whose lookup fails is not among the dictionary keys. -/
lemma find_group_none_not_mem (l : List (String × Nat)) (m : String)
    (h : find_group l m = Option.none) : m ∉ l.map Prod.fst := by
  induction l with
  | nil => simp
  | cons kv rest ih =>
    rcases kv with ⟨k, v⟩
    by_cases hm : m = k
    · simp [find_group, hm] at h
    · simp only [find_group, hm, if_false] at h
      simp [hm, ih h]

/-- The invariant maintained by the build loop: the dictionary keys are
distinct, sections without a truthy mutex key went to the global parser,
and every section with mutex id m went to the unique group the
dictionary stores under m. -/
def mutex_inv (acc : List (Section × ParserTarget) × MutexState) : Prop :=
  (acc.2.groups.map Prod.fst).Nodup ∧
  (∀ p ∈ acc.1, effective_mutex p.1 = Option.none → p.2 = ParserTarget.global) ∧
  (∀ p ∈ acc.1, ∀ m, effective_mutex p.1 = some m →
    ∃ g, find_group acc.2.groups m = some g ∧ p.2 = ParserTarget.group g)

/-- Helper: one build iteration preserves the invariant. -/
lemma assign_step_inv (acc : List (Section × ParserTarget) × MutexState)
    (sec : Section) (h : mutex_inv acc) : mutex_inv (assign_step acc sec) := by
  obtain ⟨hnodup, hglob, hgrp⟩ := h
  rcases heff : effective_mutex sec with _ | m
  · refine ⟨by simpa [assign_step, select_parser_group, heff] using hnodup, ?_, ?_⟩
    · intro p hp hpe
      simp only [assign_step, select_parser_group, heff, List.mem_append,
        List.mem_singleton] at hp
      rcases hp with hp | hp
      · exact hglob p hp hpe
      · subst hp; rfl
    · intro p hp m hpe
      simp only [assign_step, select_parser_group, heff, List.mem_append,
        List.mem_singleton] at hp
      simp only [assign_step, select_parser_group, heff]
      rcases hp with hp | hp
      · exact hgrp p hp m hpe
      · subst hp; simp [heff] at hpe
  · rcases hfind : find_group acc.2.groups m with _ | g
    · refine ⟨?_, ?_, ?_⟩
      · simp only [assign_step, select_parser_group, heff, hfind, List.map_append]
        rw [List.nodup_append]
        refine ⟨hnodup, List.nodup_singleton m, ?_⟩
        intro a ha hm2
        have ham : a = m := by simpa using hm2
        subst ham
        exact find_group_none_not_mem _ _ hfind ha
      · intro p hp hpe
        simp only [assign_step, select_parser_group, heff, hfind, List.mem_append,
          List.mem_singleton] at hp
        rcases hp with hp | hp
        · exact hglob p hp hpe
        · subst hp; simp [heff] at hpe
      · intro p hp m2 hpe
        simp only [assign_step, select_parser_group, heff, hfind, List.mem_append,
          List.mem_singleton] at hp
        simp only [assign_step, select_parser_group, heff, hfind]
        rcases hp with hp | hp
        · obtain ⟨g2, hg2, hpt⟩ := hgrp p hp m2 hpe
          exact ⟨g2, find_group_append_of_some _ _ _ _ hg2, hpt⟩
        · subst hp
          simp only at hpe
          rw [heff] at hpe
          cases hpe
          refine ⟨acc.2.next, ?_, rfl⟩
          rw [find_group_append_of_none _ _ _ hfind]
          simp [find_group]
    · refine ⟨by simpa [assign_step, select_parser_group, heff, hfind] using hnodup,
        ?_, ?_⟩
      · intro p hp hpe
        simp only [assign_step, select_parser_group, heff, hfind, List.mem_append,
          List.mem_singleton] at hp
        rcases hp with hp | hp
        · exact hglob p hp hpe
        · subst hp; simp [heff] at hpe
      · intro p hp m2 hpe
        simp only [assign_step, select_parser_group, heff, hfind, List.mem_append,
          List.mem_singleton] at hp
        simp only [assign_step, select_parser_group, heff, hfind]
        rcases hp with hp | hp
        · exact hgrp p hp m2 hpe
        · subst hp
          simp only at hpe
          rw [heff] at hpe
          cases hpe
          exact ⟨g, hfind, rfl⟩

/-- Helper: the invariant holds after the whole build loop. -/
lemma assign_targets_inv (sections : List Section) :
    mutex_inv (assign_targets sections) := by
  suffices h : ∀ acc, mutex_inv acc → mutex_inv (sections.foldl assign_step acc) by
    refine h ([], ⟨[], 0⟩) ⟨List.nodup_nil, ?_, ?_⟩ <;> intro p hp <;> simp at hp
  induction sections with
  | nil => intro acc h; exact h
  | cons sec rest ih => intro acc h; exact ih _ (assign_step_inv acc sec h)

/-- C3: all schema sections declaring the same mutex id are added to a
single mutually exclusive group.  After the build loop the group
dictionary holds at most one group per id (its keys are distinct);
a section with no truthy mutex key goes to the global parser; two
sections with the same mutex id receive the same group; and
select_parser_group creates a group exactly at the first occurrence of
an id, afterwards looking it up unchanged. -/
theorem claim_C3 (sections : List Section) :
    ((assign_targets sections).2.groups.map Prod.fst).Nodup ∧
    (∀ p ∈ (assign_targets sections).1,
      effective_mutex p.1 = Option.none → p.2 = ParserTarget.global) ∧
    (∀ p ∈ (assign_targets sections).1, ∀ q ∈ (assign_targets sections).1, ∀ m,
      effective_mutex p.1 = some m → effective_mutex q.1 = some m → p.2 = q.2) ∧
    (∀ sec st m, effective_mutex sec = some m →
      find_group st.groups m = Option.none →
      (select_parser_group sec st).2.groups = st.groups ++ [(m, st.next)] ∧
      (select_parser_group sec st).1 = ParserTarget.group st.next) ∧
    (∀ sec st m g, effective_mutex sec = some m →
      find_group st.groups m = some g →
      (select_parser_group sec st).2 = st ∧
      (select_parser_group sec st).1 = ParserTarget.group g) := by
  obtain ⟨hnodup, hglob, hgrp⟩ := assign_targets_inv sections
  refine ⟨hnodup, hglob, ?_, ?_, ?_⟩
  · intro p hp q hq m hpe hqe
    obtain ⟨g, hg, hpt⟩ := hgrp p hp m hpe
    obtain ⟨g2, hg2, hqt⟩ := hgrp q hq m hqe
    rw [hg] at hg2
    cases hg2
    rw [hpt, hqt]
  · intro sec st m heff hfind
    simp [select_parser_group, heff, hfind]
  · intro sec st m g heff hfind
    simp [select_parser_group, heff, hfind]

/-- Demo section: the [Tab] entry of the default ini file. -/
def demo_sec_tab : Section :=
  { title := "Tab", flag := some "--tab", typ := some "boolean",
    mutex := some "IndentSpaceOrTab" }

/-- Demo section: the [No Indent] entry of the default ini file. -/
def demo_sec_noindent : Section :=
  { title := "No Indent", flag := some "--no-indent", typ := some "boolean",
    mutex := some "IndentSpaceOrTab" }

/-- Demo schema walked by the C3 witness. -/
def c3_sections : List Section := [demo_sec_tab, demo_sec_bool, demo_sec_noindent]

theorem claim_C3_witness :
    (demo_sec_tab, ParserTarget.group 0) ∈ (assign_targets c3_sections).1 ∧
    (demo_sec_noindent, ParserTarget.group 0) ∈ (assign_targets c3_sections).1 ∧
    effective_mutex demo_sec_tab = some "IndentSpaceOrTab" ∧
    effective_mutex demo_sec_noindent = some "IndentSpaceOrTab" ∧
    (demo_sec_tab, ParserTarget.group 0).2 = (demo_sec_noindent, ParserTarget.group 0).2 :=
  ⟨by decide, by decide, by decide, by decide,
    (claim_C3 c3_sections).2.2.1 (demo_sec_tab, ParserTarget.group 0) (by decide)
      (demo_sec_noindent, ParserTarget.group 0) (by decide) "IndentSpaceOrTab"
      (by decide) (by decide)⟩

/-- The Python value argparse stores when an argument is absent and its
declared default applies: the 'default' ini string, or None. -/
def default_val (d : Option String) : PyVal :=
  match d with
  | Option.none => PyVal.none
  | some s => PyVal.str s

/-- Models the documented resolution behaviour of the third-party
argument parser (argparse, wrapped by Gooey) for one argument added by
add_argument, which the repository calls through parser.parse_args():
a store_true argument resolves to True when supplied and to its default
otherwise; a nargs "+" argument resolves to a non-empty list of strings
when supplied and, when optional, to its default otherwise; every other
argument resolves to a string when supplied and, when optional, to its
default otherwise.  A default that was never declared is the Python
None. -/
def may_resolve_to (a : AddedArg) (v : PyVal) : Bool :=
  if a.dict.action = some "store_true" then
    v == PyVal.bool true || v == default_val a.dict.dflt
  else if a.dict.nargs = some "+" then
    (match v with
      | PyVal.list xs => !xs.isEmpty
      | _ => false) ||
    (a.dict.required == some false && v == default_val a.dict.dflt)
  else
    (match v with
      | PyVal.str _ => true
      | _ => false) ||
    (a.dict.required == some false && v == default_val a.dict.dflt)

/-- The value kinds admitted by the specification sentence of C6:
a string, a list of strings, or a boolean — but not None. -/
def spec_value_kind_ok : PyVal → Bool
  | PyVal.str _ => true
  | PyVal.list _ => true
  | PyVal.bool _ => true
  | PyVal.none => false

/-- C6 counterexample: the boolean flag section [Sort Keys] declares no
default, so when the user leaves it unchecked the parser stores the
Python None for it — a resolved value that is neither a string, nor a
list of strings, nor a boolean. -/
theorem claim_C6_counterexample :
    may_resolve_to (add_argument demo_sec_bool) PyVal.none = true ∧
    spec_value_kind_ok PyVal.none = false := by
  constructor
  · decide
  · rfl

/-- Helper: kinds of the values an added argument can resolve to. -/
lemma may_resolve_kinds (a : AddedArg) (v : PyVal)
    (h : may_resolve_to a v = true) :
    (spec_value_kind_ok v = true ∨
      (v = PyVal.none ∧ a.dict.dflt = Option.none)) ∧
    (∀ xs, v = PyVal.list xs → a.dict.nargs = some "+") := by
  unfold may_resolve_to at h
  split_ifs at h with h1 h2
  · simp only [Bool.or_eq_true, beq_iff_eq] at h
    rcases h with h | h
    · subst h
      exact ⟨Or.inl rfl, fun xs hxs => by simp at hxs⟩
    · rcases hd : a.dict.dflt with _ | s
      · rw [hd] at h
        simp only [default_val] at h
        subst h
        exact ⟨Or.inr ⟨rfl, rfl⟩, fun xs hxs => by simp at hxs⟩
      · rw [hd] at h
        simp only [default_val] at h
        subst h
        exact ⟨Or.inl rfl, fun xs hxs => by simp at hxs⟩
  · simp only [Bool.or_eq_true, Bool.and_eq_true, beq_iff_eq] at h
    rcases h with h | ⟨hreq, h⟩
    · rcases v with _ | b | s | xs <;> simp at h
      exact ⟨Or.inl rfl, fun ys _ => h2⟩
    · rcases hd : a.dict.dflt with _ | s
      · rw [hd] at h
        simp only [default_val] at h
        subst h
        exact ⟨Or.inr ⟨rfl, rfl⟩, fun xs hxs => by simp at hxs⟩
      · rw [hd] at h
        simp only [default_val] at h
        subst h
        exact ⟨Or.inl rfl, fun xs hxs => by simp at hxs⟩
  · simp only [Bool.or_eq_true, Bool.and_eq_true, beq_iff_eq] at h
    rcases h with h | ⟨hreq, h⟩
    · rcases v with _ | b | s | xs <;> simp at h
      exact ⟨Or.inl rfl, fun ys hys => by simp at hys⟩
    · rcases hd : a.dict.dflt with _ | s
      · rw [hd] at h
        simp only [default_val] at h
        subst h
        exact ⟨Or.inr ⟨rfl, rfl⟩, fun xs hxs => by simp at hxs⟩
      · rw [hd] at h
        simp only [default_val] at h
        subst h
        exact ⟨Or.inl rfl, fun xs hxs => by simp at hxs⟩

/-- Helper: every added argument is keyed by its section title, either
as the positional name or through the dest entry. -/
lemma add_argument_keyed (sec : Section) :
    (add_argument sec).dict.dest = some sec.title ∨
    (add_argument sec).primary = sec.title := by
  by_cases hfl : (sec.flag).getD "_positional" = "_positional"
  · right; simp [add_argument, hfl]
  · left; simp [add_argument, hfl]

/-- C6 as amended: the parsed arguments map each section title to its
value (positionals by name, flagged arguments through the dest entry
set to the section title), and every resolved value is a string, a list
of strings (only for the multi-file nargs "+" type), a boolean, or the
Python None (when an argument with no declared default is not
supplied). -/
theorem claim_C6 (sec : Section) (v : PyVal)
    (h : may_resolve_to (add_argument sec) v = true) :
    (spec_value_kind_ok v = true ∨
      (v = PyVal.none ∧ (add_argument sec).dict.dflt = Option.none)) ∧
    (∀ xs, v = PyVal.list xs → (add_argument sec).dict.nargs = some "+") ∧
    ((add_argument sec).dict.dest = some sec.title ∨
      (add_argument sec).primary = sec.title) := by
  obtain ⟨hk, hl⟩ := may_resolve_kinds (add_argument sec) v h
  exact ⟨hk, hl, add_argument_keyed sec⟩

theorem claim_C6_witness :
    may_resolve_to (add_argument demo_sec_file) (PyVal.list ["in.json"]) = true ∧
    (add_argument demo_sec_file).dict.nargs = some "+" ∧
    ((add_argument demo_sec_file).dict.dest = some demo_sec_file.title ∨
      (add_argument demo_sec_file).primary = demo_sec_file.title) :=
  ⟨by decide,
    (claim_C6 demo_sec_file (PyVal.list ["in.json"]) (by decide)).2.1 ["in.json"] rfl,
    (claim_C6 demo_sec_file (PyVal.list ["in.json"]) (by decide)).2.2⟩

/-- A spawned subprocess, abstracted to what run_command observes of it:
the decoded output lines of its combined stdout/stderr stream and the
wait status it terminates with. -/
structure Process where
  lines : List String
  exit_status : Int
deriving DecidableEq

/-- Embedding of run_command (gucli.pyw lines 272-290): print the running
header, each output line right-stripped as it comes, then the status
line; return the process wait status.  The elapsed wall-clock text is a
parameter, the spawning itself being outside the embedding. -/
def run_command (cmd : String) (p : Process) (elapsed : String) : List String × Int :=
  let printed := ("Running: " ++ cmd) :: p.lines.map (fun l => l.trimRight)
  let retval := p.exit_status
  (printed ++
    ["\n# Done. Command Return Status: " ++ toString retval ++
      "; Elapsed time: " ++ elapsed ++ " sec.\n"],
    retval)

/-- Embedding of the tail of main (gucli.pyw lines 403-406): construct the
command, run it through construct_and_run, and pass the returned value to
sys.exit; the KeyError path, on which no command runs, is Option.none. -/
def main_exit (config : Config) (args : String → PyVal) (p : Process)
    (elapsed : String) : Option Int :=
  (construct_cmd config args).map (fun cmd => (run_command cmd p elapsed).2)

/-- C4: run_command returns exactly the spawned process's wait status,
after printing every output line, and main then terminates with that
status as the application exit code whenever a command is run. -/
theorem claim_C4 (cmd : String) (p : Process) (elapsed : String)
    (config : Config) (args : String → PyVal) (c : String)
    (hc : construct_cmd config args = some c) :
    (run_command cmd p elapsed).2 = p.exit_status ∧
    (∀ l ∈ p.lines, l.trimRight ∈ (run_command cmd p elapsed).1) ∧
    main_exit config args p elapsed = some p.exit_status := by
  refine ⟨rfl, ?_, ?_⟩
  · intro l hl
    simp only [run_command, List.mem_append, List.mem_cons, List.mem_map]
    exact Or.inl (Or.inr ⟨l, hl, rfl⟩)
  · rw [main_exit, hc]
    rfl

/-- Demo process observed by the C4 witness. -/
def demo_proc : Process := { lines := ["  done  "], exit_status := 3 }

theorem claim_C4_witness :
    construct_cmd c1_config c1_args = some "python -m json.tool --sort-keys" ∧
    ((run_command "python -m json.tool --sort-keys" demo_proc "0.10").2
        = demo_proc.exit_status ∧
      ("  done  ").trimRight ∈
        (run_command "python -m json.tool --sort-keys" demo_proc "0.10").1 ∧
      main_exit c1_config c1_args demo_proc "0.10" = some demo_proc.exit_status) := by
  have h := claim_C4 "python -m json.tool --sort-keys" demo_proc "0.10"
    c1_config c1_args "python -m json.tool --sort-keys" (by decide)
  exact ⟨by decide, h.1, h.2.1 "  done  " (by decide), h.2.2⟩

/-- Embedding of the ini bootstrap of main (gucli.pyw lines 390-396): the
file system is a mapping from file name to contents; when the expected
ini file does not exist, the default configuration text is written to
it, and otherwise nothing is written. -/
def ensure_ini (fs : String → Option String) (name : String) (text : String) :
    String → Option String :=
  match fs name with
  | some _ => fs
  | Option.none => fun n => if n = name then some text else fs n

/-- The contents that config.read_file then reads from the ini file
(gucli.pyw lines 399-401). -/
def read_ini (fs : String → Option String) (name : String) (text : String) :
    Option String :=
  ensure_ini fs name text name

/-- C5: the default configuration file is created exactly when the
expected ini file is absent: an absent file receives the default text,
which is then loaded, and no other file is touched; an existing file is
left byte-for-byte unchanged and its own contents are loaded. -/
theorem claim_C5 (fs : String → Option String) (name text : String) :
    (fs name = Option.none →
      ensure_ini fs name text name = some text ∧
      read_ini fs name text = some text ∧
      ∀ n, n ≠ name → ensure_ini fs name text n = fs n) ∧
    (∀ c, fs name = some c →
      ensure_ini fs name text = fs ∧ read_ini fs name text = some c) := by
  constructor
  · intro h
    refine ⟨?_, ?_, ?_⟩
    · simp [ensure_ini, h]
    · simp [read_ini, ensure_ini, h]
    · intro n hn
      simp [ensure_ini, h, hn]
  · intro c h
    constructor
    · simp [ensure_ini, h]
    · simp [read_ini, ensure_ini, h]

/-- Empty demo file system used by the C5 witness. -/
def demo_fs : String → Option String := fun _ => Option.none

theorem claim_C5_witness :
    demo_fs "gucli.ini" = Option.none ∧
    ensure_ini demo_fs "gucli.ini" "[root]" "gucli.ini" = some "[root]" ∧
    read_ini demo_fs "gucli.ini" "[root]" = some "[root]" :=
  ⟨rfl, ((claim_C5 demo_fs "gucli.ini" "[root]").1 rfl).1,
    ((claim_C5 demo_fs "gucli.ini" "[root]").1 rfl).2.1⟩

end Gucli
